import Mathlib

/-!
Shallow embedding of `src/transcribe.py` (the `AudioTranscriber` job pipeline)
and proofs of the specification claims about it.

External collaborators (filesystem, yt-dlp download, ffmpeg extraction,
Whisper transcription, clipboard, file writes) are modelled by an `Env`
record of oracles giving the observed outcome of each external call; the
orchestration logic itself is translated line by line from the source.
Job `status` is a `String`, exactly as in the Python dataclass.
-/

namespace Transcribe

/-- Mirror of the Python dataclass `TranscriptionJob` (src/transcribe.py lines 46-57). -/
structure TranscriptionJob where
  source : String
  job_id : String
  is_local_file : Bool := false
  audio_format : Option String := none
  language : Option String := none
  status : String := "pending"
  audio_file : Option String := none
  transcript : Option String := none
  error : Option String := none
deriving Repr, DecidableEq

/-- Outcomes of the external collaborators and the transcriber's configuration.
Each field records the observed result of one kind of external call:
`isfile` is `os.path.isfile`, `path_exists` is `os.path.exists` (also used to
locate the file produced by a download), `extract_ok` is whether
`_extract_audio_from_video video out` succeeds, `download_exc src fmt` is the
exception message raised by `ydl.download` (or `none` on success),
`transcribe_result audio lang` is the Whisper transcription outcome,
`write_ok` and `clipboard_ok` are the outcomes of file writes and
`pyperclip.copy`. `temp_dir` and `auto_cleanup` are `AudioTranscriber`
constructor fields. -/
structure Env where
  isfile : String → Bool
  path_exists : String → Bool
  extract_ok : String → String → Bool
  download_exc : String → String → Option String
  transcribe_result : Option String → Option String → Except String String
  write_ok : String → Bool
  clipboard_ok : String → Bool
  temp_dir : String
  auto_cleanup : Bool

/-- Character-list version of `str.startswith`: `listPreEq pre cs` is true
when `pre` is an initial segment of `cs` (structural recursion, so that the
kernel can evaluate it on literals). -/
def listPreEq : List Char → List Char → Bool
  | [], _ => true
  | _ :: _, [] => false
  | a :: as, b :: bs => a == b && listPreEq as bs

/-- `s.startswith(pre)` on the underlying character lists. -/
def strStartsWith (s pre : String) : Bool :=
  listPreEq pre.toList s.toList

/-- `str.lower()` applied characterwise. -/
def lowerStr (s : String) : String :=
  String.mk (s.toList.map Char.toLower)

/-- `AudioTranscriber._is_url` (line 95): the source starts with an http or https scheme. -/
def is_url (source : String) : Bool :=
  strStartsWith source "http://" || strStartsWith source "https://"

/-- Index of the last occurrence of `c` in `cs`, accumulating from position `i`. -/
def lastIndexOfAux (cs : List Char) (c : Char) (i : Nat) (best : Option Nat) : Option Nat :=
  match cs with
  | [] => best
  | ch :: rest => lastIndexOfAux rest c (i + 1) (if ch = c then some i else best)

/-- Final path component of a path, as `pathlib.Path(...).name`: trailing
slashes are dropped, then the text after the last remaining slash is kept. -/
def lastComponent (p : String) : String :=
  String.mk ((((p.toList.reverse).dropWhile (fun c => c = '/')).takeWhile
    (fun c => c ≠ '/')).reverse)

/-- `pathlib.Path(p).suffix`: the final extension of the last component,
empty when the last dot is leading or trailing (CPython's
`0 < i < len(name) - 1` rule). -/
def pathSuffix (p : String) : String :=
  let name := lastComponent p
  let cs := name.toList
  match lastIndexOfAux cs '.' 0 none with
  | none => ""
  | some i => if 0 < i ∧ i < cs.length - 1 then String.mk (cs.drop i) else ""

/-- The sanitised job id used in temp file names (lines 200, 230):
keep alphanumerics, `-` and `_`. -/
def safeId (s : String) : String :=
  String.mk (s.toList.filter (fun c => c.isAlphanum || c = '-' || c = '_'))

/-- Audio extensions usable directly (line 190). -/
def audio_extensions : List String :=
  [".mp3", ".wav", ".m4a", ".aac", ".ogg", ".flac", ".wma"]

/-- Video extensions that trigger audio extraction (line 197). -/
def video_extensions : List String :=
  [".mp4", ".mkv", ".avi", ".mov", ".webm", ".3gp", ".flv"]

/-- Extensions scanned for the downloaded file (line 247). -/
def possible_extensions : List String :=
  [".mp3", ".m4a", ".wav", ".webm", ".ogg"]

/-- Result of one pipeline stage: the updated job, the boolean the Python
method returns, and the successive values assigned to `job.status` by the
stage, in program order (the instrumentation used to state the state-machine
claims). -/
structure StageOut where
  job : TranscriptionJob
  ok : Bool
  writes : List String
deriving Repr

/-- `AudioTranscriber._prepare_local_file` (lines 177-221). Fails only when
`os.path.exists` is false; audio extensions pass through, video extensions
try extraction and fall back to the raw file on extraction failure, unknown
extensions pass through as a best-effort attempt. -/
def prepare_local_file (env : Env) (job : TranscriptionJob) : StageOut :=
  if !(env.path_exists job.source) then
    { job := { job with
        error := some ("File preparation error: File not found: " ++ job.source),
        status := "failed" },
      ok := false, writes := ["failed"] }
  else
    let file_ext := lowerStr (pathSuffix job.source)
    if audio_extensions.contains file_ext then
      { job := { job with audio_file := some job.source }, ok := true, writes := [] }
    else if video_extensions.contains file_ext then
      let audio_out := env.temp_dir ++ "/extracted_audio_" ++ safeId job.job_id ++ ".mp3"
      if env.extract_ok job.source audio_out then
        { job := { job with audio_file := some audio_out }, ok := true, writes := [] }
      else
        { job := { job with audio_file := some job.source }, ok := true, writes := [] }
    else
      { job := { job with audio_file := some job.source }, ok := true, writes := [] }

/-- `AudioTranscriber._download_audio` (lines 223-262). Sets status to
"downloading", invokes yt-dlp, then scans `possible_extensions` for the
produced file; any exception (including the final `FileNotFoundError`)
records a "Download error: ..." and fails the job. -/
def download_audio (env : Env) (job : TranscriptionJob) : StageOut :=
  let job1 := { job with status := "downloading" }
  let base_path := env.temp_dir ++ "/audio_" ++ safeId job.job_id
  match env.download_exc job.source (job.audio_format.getD "bestaudio/best") with
  | some e =>
    { job := { job1 with error := some ("Download error: " ++ e), status := "failed" },
      ok := false, writes := ["downloading", "failed"] }
  | none =>
    match possible_extensions.find? (fun ext => env.path_exists (base_path ++ ext)) with
    | some ext =>
      { job := { job1 with audio_file := some (base_path ++ ext) },
        ok := true, writes := ["downloading"] }
    | none =>
      { job := { job1 with
          error := some ("Download error: Downloaded audio file not found"),
          status := "failed" },
        ok := false, writes := ["downloading", "failed"] }

/-- `AudioTranscriber._transcribe_audio` (lines 264-299). Sets status to
"transcribing", invokes Whisper; on success stores the stripped transcript
and sets status "completed", on failure records a "Transcription error: ...". -/
def transcribe_audio (env : Env) (job : TranscriptionJob) : StageOut :=
  let job1 := { job with status := "transcribing" }
  match env.transcribe_result job.audio_file job.language with
  | Except.ok text =>
    { job := { job1 with transcript := some text.trim, status := "completed" },
      ok := true, writes := ["transcribing", "completed"] }
  | Except.error e =>
    { job := { job1 with error := some ("Transcription error: " ++ e), status := "failed" },
      ok := false, writes := ["transcribing", "failed"] }

/-- `AudioTranscriber._cleanup_audio_file` (lines 301-314): returns the path
whose deletion is attempted (`os.remove`), or `none` when nothing is deleted.
The original local source file is explicitly protected (line 305); removal
failures are swallowed after logging. -/
def cleanup_audio_file (env : Env) (job : TranscriptionJob) : Option String :=
  match job.audio_file with
  | none => none
  | some af =>
    if env.auto_cleanup then
      if job.is_local_file && af == job.source then none
      else if env.path_exists af then some af
      else none
    else none

/-- Result of `_process_job`: the final job, whether the transcribe stage was
invoked, the successive status writes of the whole pipeline, and the file
deleted by cleanup (if any). -/
structure ProcResult where
  job : TranscriptionJob
  transcribe_invoked : Bool
  writes : List String
  deleted : Option String
deriving Repr

/-- `AudioTranscriber._process_job` (lines 316-335): acquisition stage
(local preparation or download), then transcription only when acquisition
returned true, and cleanup on every path (the `finally` block). -/
def process_job (env : Env) (job : TranscriptionJob) : ProcResult :=
  let s1 := if job.is_local_file then prepare_local_file env job else download_audio env job
  if s1.ok then
    let s2 := transcribe_audio env s1.job
    { job := s2.job, transcribe_invoked := true, writes := s1.writes ++ s2.writes,
      deleted := cleanup_audio_file env s2.job }
  else
    { job := s1.job, transcribe_invoked := false, writes := s1.writes,
      deleted := cleanup_audio_file env s1.job }

/-- `AudioTranscriber.add_job` (lines 337-357). `now_ms` models
`int(time.time() * 1000)`. On success returns the extended registry (the
dict keeps insertion order) and the new job id; an invalid source raises
`ValueError` before any job is created, so the error carries no registry
change and no id. Format hints are dropped for local files (line 353). -/
def add_job (env : Env) (now_ms : Nat) (jobs : List TranscriptionJob)
    (source : String) (audio_format language : Option String) :
    Except String (List TranscriptionJob × String) :=
  let job_id := "job_" ++ toString now_ms ++ "_" ++ toString jobs.length
  let is_local_file := env.isfile source
  if !is_local_file && !(is_url source) then
    Except.error ("Source must be either a valid URL or existing file: " ++ source)
  else
    let job : TranscriptionJob :=
      { source := source, job_id := job_id, is_local_file := is_local_file,
        audio_format := if is_local_file then none else audio_format,
        language := language }
    Except.ok (jobs ++ [job], job_id)

/-- The dispatch boundary of `process_jobs` (lines 372-379): run the pipeline
for one job; `fault job_id` models an unexpected exception escaping
`_process_job` (caught at `future.result()`), which is recorded as a
"Processing error: ..." and fails the job. -/
def dispatch (env : Env) (fault : String → Option String) (job : TranscriptionJob) :
    TranscriptionJob :=
  let r := (process_job env job).job
  match fault job.job_id with
  | none => r
  | some e => { r with error := some ("Processing error: " ++ e), status := "failed" }

/-- `AudioTranscriber.process_jobs` (lines 359-381), with the fault oracle for
the dispatch boundary: select the jobs whose status is "pending" (line 361),
return the registry untouched when there are none (line 363), otherwise run
each pending job's pipeline (jobs mutate independently, so the concurrent
pool is a map over the registry in insertion order). -/
def process_jobs_exc (env : Env) (fault : String → Option String)
    (jobs : List TranscriptionJob) : List TranscriptionJob :=
  let pending_jobs := jobs.filter (fun j => j.status == "pending")
  if pending_jobs.isEmpty then jobs
  else jobs.map (fun job => if job.status == "pending" then dispatch env fault job else job)

/-- `AudioTranscriber.process_jobs` under the program's own semantics: no
code inside `_process_job` lets an exception escape (every stage catches its
own), so the fault oracle is empty. -/
def process_jobs (env : Env) (jobs : List TranscriptionJob) : List TranscriptionJob :=
  process_jobs_exc env (fun _ => none) jobs

/-- One registry operation: a submission (with its `time.time()*1000` value)
or a `process_jobs` round. -/
inductive Op where
  | submit (source : String) (audio_format language : Option String) (now_ms : Nat)
  | runPending
deriving Repr

/-- Apply one operation to the registry; a rejected submission (ValueError)
leaves the registry unchanged. -/
def applyOp (env : Env) (jobs : List TranscriptionJob) (op : Op) : List TranscriptionJob :=
  match op with
  | Op.submit source fmt lang now_ms =>
    match add_job env now_ms jobs source fmt lang with
    | Except.ok (jobs2, _) => jobs2
    | Except.error _ => jobs
  | Op.runPending => process_jobs env jobs

/-- Run a sequence of operations from the empty registry (`self.jobs = {}`). -/
def runOps (env : Env) (ops : List Op) : List TranscriptionJob :=
  ops.foldl (applyOp env) []

/-- Python truthiness of the `Optional[str]` transcript in
`if job and job.transcript:`: `None` and `""` are falsy. -/
def transcript_truthy : Option String → Bool
  | none => false
  | some s => s ≠ ""

/-- `AudioTranscriber.copy_transcript_to_clipboard` (lines 391-405): returns
the success boolean and the content handed to `pyperclip.copy` (`none` when
the clipboard is never touched). -/
def copy_transcript_to_clipboard (env : Env) (jobs : List TranscriptionJob)
    (job_id : String) : Bool × Option String :=
  match jobs.find? (fun j => j.job_id == job_id) with
  | none => (false, none)
  | some job =>
    if transcript_truthy job.transcript then
      let source_label := if job.is_local_file then "File" else "URL"
      let clipboard_content :=
        "Source (" ++ source_label ++ "): " ++ job.source ++ "\n\n"
          ++ job.transcript.getD ""
      (env.clipboard_ok clipboard_content, some clipboard_content)
    else (false, none)

/-- `AudioTranscriber.save_transcript` (lines 407-424): returns the success
boolean and the attempted file write as (filename, content) (`none` when no
file is opened or written). -/
def save_transcript (env : Env) (jobs : List TranscriptionJob)
    (job_id filename : String) : Bool × Option (String × String) :=
  match jobs.find? (fun j => j.job_id == job_id) with
  | none => (false, none)
  | some job =>
    if transcript_truthy job.transcript then
      let source_label := if job.is_local_file then "File" else "URL"
      let content :=
        "Source (" ++ source_label ++ "): " ++ job.source ++ "\n"
          ++ "Job ID: " ++ job.job_id ++ "\n"
          ++ "Language: " ++ job.language.getD "auto-detected" ++ "\n"
          ++ String.mk (List.replicate 50 '=') ++ "\n"
          ++ job.transcript.getD ""
      (env.write_ok filename, some (filename, content))
    else (false, none)

/-- The five status values named by the specification. -/
def spec_status_values : List String :=
  ["pending", "resolving", "transcribing", "completed", "failed"]

/-- The five status values the code actually assigns. -/
def code_status_values : List String :=
  ["pending", "downloading", "transcribing", "completed", "failed"]

/-- The forward transitions of the code's per-job state machine:
"downloading" is the acquisition state (remote jobs only; local jobs move
straight from "pending" to "transcribing"), "failed" is reachable from
"pending", "downloading" and "transcribing", and the terminal states have no
successor. -/
def status_step (a b : String) : Bool :=
  (a == "pending" && (b == "downloading" || b == "transcribing" || b == "failed"))
    || (a == "downloading" && (b == "transcribing" || b == "failed"))
    || (a == "transcribing" && (b == "completed" || b == "failed"))

/-- A status history is a chain of `status_step` transitions: every
consecutive pair of values is a legal forward transition. -/
def status_chain : List String → Bool
  | [] => true
  | [_] => true
  | a :: b :: rest => status_step a b && status_chain (b :: rest)

/-- The registry invariant holding between operations: every job at rest is
pending, completed or failed, with the transcript/error fields determined by
the status. -/
def restInv (j : TranscriptionJob) : Prop :=
  (j.status = "pending" ∨ j.status = "completed" ∨ j.status = "failed")
    ∧ (j.status = "pending" → j.transcript = none ∧ j.error = none)
    ∧ (j.status = "completed" → j.transcript ≠ none ∧ j.error = none)
    ∧ (j.status = "failed" → j.error ≠ none ∧ j.transcript = none)

/-!  Concrete environments and jobs used by witnesses and counterexamples.  -/

/-- Environment in which the download collaborator raises and nothing else
succeeds. -/
def env_dlfail : Env :=
  { isfile := fun _ => false, path_exists := fun _ => false,
    extract_ok := fun _ _ => false,
    download_exc := fun _ _ => some "network down",
    transcribe_result := fun _ _ => Except.error "no model",
    write_ok := fun _ => true, clipboard_ok := fun _ => true,
    temp_dir := "/tmp", auto_cleanup := true }

/-- Environment in which every source counts as a local file at submission
time but no path exists at processing time. -/
def env_localgone : Env :=
  { isfile := fun _ => true, path_exists := fun _ => false,
    extract_ok := fun _ _ => false,
    download_exc := fun _ _ => none,
    transcribe_result := fun _ _ => Except.error "no model",
    write_ok := fun _ => true, clipboard_ok := fun _ => true,
    temp_dir := "/tmp", auto_cleanup := true }

/-- Environment for a local video whose extraction fails but whose
transcription succeeds. -/
def env_video : Env :=
  { isfile := fun _ => true, path_exists := fun _ => true,
    extract_ok := fun _ _ => false,
    download_exc := fun _ _ => none,
    transcribe_result := fun _ _ => Except.ok "hello",
    write_ok := fun _ => true, clipboard_ok := fun _ => true,
    temp_dir := "/tmp", auto_cleanup := true }

/-- A freshly submitted remote job. -/
def cexJobRemote : TranscriptionJob :=
  { source := "https://example.com/a", job_id := "job_1_0" }

/-- A freshly submitted local video job. -/
def wJobVideo : TranscriptionJob :=
  { source := "/home/u/v.mp4", job_id := "job_2_0", is_local_file := true }

/-- A local job whose audio path is its own source file. -/
def wJobLocalAudio : TranscriptionJob :=
  { source := "/home/u/a.mp3", job_id := "job_3_0", is_local_file := true,
    audio_file := some "/home/u/a.mp3" }

/-- A job already failed (terminal, no transcript). -/
def wJobFailed : TranscriptionJob :=
  { source := "https://example.com/a", job_id := "job_4_0", status := "failed",
    error := some "Download error: network down" }

/-- The fault oracle that injects an unexpected exception into job "job_1_0"
only. -/
def wFault : String → Option String :=
  fun id => if id == "job_1_0" then some "boom" else none

/-- Default job used with `List.getD`. -/
def dJob : TranscriptionJob :=
  { source := "", job_id := "" }

/-- The job record `add_job` stores for a valid source (lines 349-355),
named for reuse in statements. -/
def new_job (env : Env) (now_ms : Nat) (len : Nat) (source : String)
    (fmt lang : Option String) : TranscriptionJob :=
  { source := source,
    job_id := "job_" ++ toString now_ms ++ "_" ++ toString len,
    is_local_file := env.isfile source,
    audio_format := if env.isfile source then none else fmt,
    language := lang }

/-- A local job as created by a submission in `env_localgone`. -/
def wJobLocal : TranscriptionJob :=
  { source := "f.mp3", job_id := "job_7_0", is_local_file := true }

/-- The job `wJobLocal` after its processing round in `env_localgone`. -/
def wJobLocalDone : TranscriptionJob :=
  { source := "f.mp3", job_id := "job_7_0", is_local_file := true,
    status := "failed", error := some "File preparation error: File not found: f.mp3" }

/-!  Helper lemmas about the stages and the pipeline.  -/

theorem append_ne_empty (a b : String) (ha : a.length ≠ 0) : a ++ b ≠ "" := by
  intro h
  have h2 := congrArg String.length h
  rw [String.length_append] at h2
  have h3 : "".length = 0 := rfl
  rw [h3] at h2
  omega

theorem transcribe_audio_fields (env : Env) (job : TranscriptionJob) :
    ((transcribe_audio env job).ok = true ∧
     (transcribe_audio env job).job.status = "completed" ∧
     (transcribe_audio env job).job.transcript ≠ none ∧
     (transcribe_audio env job).job.error = job.error ∧
     (transcribe_audio env job).writes = ["transcribing", "completed"] ∧
     (transcribe_audio env job).job.audio_file = job.audio_file) ∨
    ((transcribe_audio env job).ok = false ∧
     (transcribe_audio env job).job.status = "failed" ∧
     (∃ m, (transcribe_audio env job).job.error = some m ∧ m ≠ "") ∧
     (transcribe_audio env job).job.transcript = job.transcript ∧
     (transcribe_audio env job).writes = ["transcribing", "failed"] ∧
     (transcribe_audio env job).job.audio_file = job.audio_file) := by
  rcases h : env.transcribe_result job.audio_file job.language with e | t
  · right
    simp [transcribe_audio, h]
    exact append_ne_empty _ _ (by decide)
  · left
    simp [transcribe_audio, h]

theorem prepare_local_file_fields (env : Env) (job : TranscriptionJob) :
    ((prepare_local_file env job).ok = false ∧
     (prepare_local_file env job).job.status = "failed" ∧
     (∃ m, (prepare_local_file env job).job.error = some m ∧ m ≠ "") ∧
     (prepare_local_file env job).job.transcript = job.transcript ∧
     (prepare_local_file env job).writes = ["failed"]) ∨
    ((prepare_local_file env job).ok = true ∧
     (prepare_local_file env job).job.status = job.status ∧
     (prepare_local_file env job).job.error = job.error ∧
     (prepare_local_file env job).job.transcript = job.transcript ∧
     (prepare_local_file env job).writes = []) := by
  rcases hex : env.path_exists job.source with _ | _
  · left
    simp [prepare_local_file, hex]
    exact append_ne_empty _ _ (by decide)
  · right
    simp only [prepare_local_file, hex, Bool.not_true, Bool.false_eq_true, if_false]
    split
    · simp
    · split
      · split
        · simp
        · simp
      · simp

theorem download_audio_fields (env : Env) (job : TranscriptionJob) :
    ((download_audio env job).ok = false ∧
     (download_audio env job).job.status = "failed" ∧
     (∃ m, (download_audio env job).job.error = some m ∧ m ≠ "") ∧
     (download_audio env job).job.transcript = job.transcript ∧
     (download_audio env job).writes = ["downloading", "failed"]) ∨
    ((download_audio env job).ok = true ∧
     (download_audio env job).job.status = "downloading" ∧
     (download_audio env job).job.error = job.error ∧
     (download_audio env job).job.transcript = job.transcript ∧
     (download_audio env job).writes = ["downloading"]) := by
  rcases h : env.download_exc job.source (job.audio_format.getD "bestaudio/best") with _ | e
  · simp only [download_audio, h]
    rcases h2 : possible_extensions.find? (fun ext =>
        env.path_exists (env.temp_dir ++ "/audio_" ++ safeId job.job_id ++ ext)) with _ | ext
    · left
      simp [h2]
    · right
      simp [h2]
  · left
    simp [download_audio, h]
    exact append_ne_empty _ _ (by decide)

theorem process_job_status_terminal (env : Env) (job : TranscriptionJob) :
    (process_job env job).job.status = "completed" ∨
    (process_job env job).job.status = "failed" := by
  simp only [process_job]
  cases hl : job.is_local_file with
  | true =>
    simp only [if_true]
    rcases prepare_local_file_fields env job with ⟨hok, hst, _⟩ | ⟨hok, _⟩
    · simp only [hok, Bool.false_eq_true, if_false]
      right; exact hst
    · simp only [hok, if_true]
      rcases transcribe_audio_fields env (prepare_local_file env job).job with
        ⟨_, hc, _⟩ | ⟨_, hf, _⟩
      · left; exact hc
      · right; exact hf
  | false =>
    simp only [Bool.false_eq_true, if_false]
    rcases download_audio_fields env job with ⟨hok, hst, _⟩ | ⟨hok, _⟩
    · simp only [hok, Bool.false_eq_true, if_false]
      right; exact hst
    · simp only [hok, if_true]
      rcases transcribe_audio_fields env (download_audio env job).job with
        ⟨_, hc, _⟩ | ⟨_, hf, _⟩
      · left; exact hc
      · right; exact hf

theorem process_job_restInv (env : Env) (job : TranscriptionJob)
    (ht : job.transcript = none) (he : job.error = none) :
    restInv (process_job env job).job := by
  simp only [process_job]
  cases hl : job.is_local_file with
  | true =>
    simp only [if_true]
    rcases prepare_local_file_fields env job with
      ⟨hok, hst, ⟨m, hm, hmne⟩, htr, _⟩ | ⟨hok, _, herr, htr, _⟩
    · simp only [hok, Bool.false_eq_true, if_false]
      refine ⟨Or.inr (Or.inr hst), ?_, ?_, ?_⟩
      · intro hp; rw [hst] at hp; exact absurd hp (by decide)
      · intro hp; rw [hst] at hp; exact absurd hp (by decide)
      · intro _; exact ⟨by rw [hm]; simp, by rw [htr]; exact ht⟩
    · simp only [hok, if_true]
      rcases transcribe_audio_fields env (prepare_local_file env job).job with
        ⟨_, hc, htr2, herr2, _⟩ | ⟨_, hf, ⟨m, hm, _⟩, htr2, _⟩
      · refine ⟨Or.inr (Or.inl hc), ?_, ?_, ?_⟩
        · intro hp; rw [hc] at hp; exact absurd hp (by decide)
        · intro _; exact ⟨htr2, by rw [herr2, herr]; exact he⟩
        · intro hp; rw [hc] at hp; exact absurd hp (by decide)
      · refine ⟨Or.inr (Or.inr hf), ?_, ?_, ?_⟩
        · intro hp; rw [hf] at hp; exact absurd hp (by decide)
        · intro hp; rw [hf] at hp; exact absurd hp (by decide)
        · intro _; exact ⟨by rw [hm]; simp, by rw [htr2, htr]; exact ht⟩
  | false =>
    simp only [Bool.false_eq_true, if_false]
    rcases download_audio_fields env job with
      ⟨hok, hst, ⟨m, hm, hmne⟩, htr, _⟩ | ⟨hok, _, herr, htr, _⟩
    · simp only [hok, Bool.false_eq_true, if_false]
      refine ⟨Or.inr (Or.inr hst), ?_, ?_, ?_⟩
      · intro hp; rw [hst] at hp; exact absurd hp (by decide)
      · intro hp; rw [hst] at hp; exact absurd hp (by decide)
      · intro _; exact ⟨by rw [hm]; simp, by rw [htr]; exact ht⟩
    · simp only [hok, if_true]
      rcases transcribe_audio_fields env (download_audio env job).job with
        ⟨_, hc, htr2, herr2, _⟩ | ⟨_, hf, ⟨m, hm, _⟩, htr2, _⟩
      · refine ⟨Or.inr (Or.inl hc), ?_, ?_, ?_⟩
        · intro hp; rw [hc] at hp; exact absurd hp (by decide)
        · intro _; exact ⟨htr2, by rw [herr2, herr]; exact he⟩
        · intro hp; rw [hc] at hp; exact absurd hp (by decide)
      · refine ⟨Or.inr (Or.inr hf), ?_, ?_, ?_⟩
        · intro hp; rw [hf] at hp; exact absurd hp (by decide)
        · intro hp; rw [hf] at hp; exact absurd hp (by decide)
        · intro _; exact ⟨by rw [hm]; simp, by rw [htr2, htr]; exact ht⟩


theorem dispatch_noFault (env : Env) (job : TranscriptionJob) :
    dispatch env (fun _ => none) job = (process_job env job).job := rfl

theorem process_jobs_exc_length (env : Env) (fault : String → Option String)
    (jobs : List TranscriptionJob) :
    (process_jobs_exc env fault jobs).length = jobs.length := by
  simp only [process_jobs_exc]
  split
  · rfl
  · simp

theorem process_jobs_exc_getD (env : Env) (fault : String → Option String)
    (jobs : List TranscriptionJob) (i : Nat) (h : i < jobs.length) :
    (process_jobs_exc env fault jobs).getD i dJob =
      (if (jobs.getD i dJob).status == "pending"
       then dispatch env fault (jobs.getD i dJob) else jobs.getD i dJob) := by
  simp only [process_jobs_exc]
  split
  · rename_i hemp
    rw [List.isEmpty_iff, List.filter_eq_nil_iff] at hemp
    have hmem : jobs.getD i dJob ∈ jobs := by
      rw [List.getD_eq_getElem jobs dJob h]
      exact List.getElem_mem h
    have hnp := hemp _ hmem
    simp only [Bool.not_eq_true] at hnp
    rw [hnp]
    simp
  · rw [List.getD_eq_getElem jobs dJob h]
    have h2 : i < (jobs.map (fun job =>
        if job.status == "pending" then dispatch env fault job else job)).length := by
      rw [List.length_map]; exact h
    rw [List.getD_eq_getElem _ dJob h2, List.getElem_map]

theorem add_job_cases (env : Env) (now_ms : Nat) (jobs : List TranscriptionJob)
    (source : String) (fmt lang : Option String) :
    add_job env now_ms jobs source fmt lang =
      Except.error ("Source must be either a valid URL or existing file: " ++ source) ∨
    add_job env now_ms jobs source fmt lang =
      Except.ok (jobs ++ [new_job env now_ms jobs.length source fmt lang],
        "job_" ++ toString now_ms ++ "_" ++ toString jobs.length) := by
  simp only [add_job]
  split
  · left; rfl
  · right; rfl

theorem restInv_new_job (env : Env) (now_ms len : Nat) (source : String)
    (fmt lang : Option String) :
    restInv (new_job env now_ms len source fmt lang) := by
  constructor
  · exact Or.inl rfl
  constructor
  · intro _; exact ⟨rfl, rfl⟩
  constructor
  · intro hc; exact absurd hc (by decide : ¬("pending" = "completed"))
  · intro hf; exact absurd hf (by decide : ¬("pending" = "failed"))

theorem applyOp_restInv (env : Env) (jobs : List TranscriptionJob) (op : Op)
    (h : ∀ j ∈ jobs, restInv j) : ∀ j ∈ applyOp env jobs op, restInv j := by
  cases op with
  | submit source fmt lang now_ms =>
    rcases add_job_cases env now_ms jobs source fmt lang with ha | ha <;>
      simp only [applyOp, ha]
    · exact h
    · intro j hj
      rcases List.mem_append.mp hj with hj2 | hj2
      · exact h j hj2
      · rcases List.mem_singleton.mp hj2 with rfl
        exact restInv_new_job env now_ms jobs.length source fmt lang
  | runPending =>
    intro j hj
    simp only [applyOp, process_jobs, process_jobs_exc] at hj
    split at hj
    · exact h j hj
    · rcases List.mem_map.mp hj with ⟨a, ha, rfl⟩
      by_cases hp : (a.status == "pending") = true
      · simp only [hp, if_true]
        rw [dispatch_noFault]
        have hpend := (h a ha).2.1 (by simpa using hp)
        exact process_job_restInv env a hpend.1 hpend.2
      · rw [Bool.not_eq_true] at hp
        simp only [hp, Bool.false_eq_true, if_false]
        exact h a ha

theorem runOps_restInv (env : Env) :
    ∀ (ops : List Op) (init : List TranscriptionJob),
      (∀ j ∈ init, restInv j) → ∀ j ∈ ops.foldl (applyOp env) init, restInv j := by
  intro ops
  induction ops with
  | nil => intro init h; simpa using h
  | cons op rest ih =>
    intro init h
    simp only [List.foldl_cons]
    exact ih (applyOp env init op) (applyOp_restInv env init op h)



theorem process_job_writes_cases (env : Env) (job : TranscriptionJob) :
    (process_job env job).writes = ["failed"] ∨
    (process_job env job).writes = ["transcribing", "completed"] ∨
    (process_job env job).writes = ["transcribing", "failed"] ∨
    (process_job env job).writes = ["downloading", "failed"] ∨
    (process_job env job).writes = ["downloading", "transcribing", "completed"] ∨
    (process_job env job).writes = ["downloading", "transcribing", "failed"] := by
  simp only [process_job]
  cases hl : job.is_local_file with
  | true =>
    simp only [if_true]
    rcases prepare_local_file_fields env job with ⟨hok, _, _, _, hw⟩ | ⟨hok, _, _, _, hw⟩
    · simp only [hok, Bool.false_eq_true, if_false, hw]
      left; trivial
    · simp only [hok, if_true, hw]
      rcases transcribe_audio_fields env (prepare_local_file env job).job with
        ⟨_, _, _, _, hw2, _⟩ | ⟨_, _, _, _, hw2, _⟩
      · rw [hw2]; right; left; trivial
      · rw [hw2]; right; right; left; trivial
  | false =>
    simp only [Bool.false_eq_true, if_false]
    rcases download_audio_fields env job with ⟨hok, _, _, _, hw⟩ | ⟨hok, _, _, _, hw⟩
    · simp only [hok, Bool.false_eq_true, if_false, hw]
      right; right; right; left; trivial
    · simp only [hok, if_true, hw]
      rcases transcribe_audio_fields env (download_audio env job).job with
        ⟨_, _, _, _, hw2, _⟩ | ⟨_, _, _, _, hw2, _⟩
      · rw [hw2]; right; right; right; right; left; trivial
      · rw [hw2]; right; right; right; right; right; trivial

/-- C1 counterexample: for the freshly submitted remote job `cexJobRemote`
run in `env_dlfail`, the status field takes the value "downloading", which is
not among the five values named by the claim (the claim's "resolving" never
occurs in the code). -/
theorem C1_spec_status_values_counterexample :
    cexJobRemote.status = "pending" ∧
    "downloading" ∈ cexJobRemote.status :: (process_job env_dlfail cexJobRemote).writes ∧
    ¬ ("downloading" ∈ spec_status_values) ∧
    ¬ (∀ s ∈ cexJobRemote.status :: (process_job env_dlfail cexJobRemote).writes,
        s ∈ spec_status_values) := by
  refine ⟨rfl, by decide, by decide, by decide⟩

/-- C1 (amended): during a pipeline run on a pending job the status field
holds only the five values pending, downloading, transcribing, completed,
failed, and the successive values follow the forward state machine
pending → downloading → transcribing → completed (local jobs skip
"downloading"), with "failed" reachable from pending, downloading or
transcribing only; terminal states have no successor, so no state is
re-entered. -/
theorem C1_status_machine_forward (env : Env) (job : TranscriptionJob)
    (h : job.status = "pending") :
    (∀ s ∈ job.status :: (process_job env job).writes, s ∈ code_status_values) ∧
    status_chain (job.status :: (process_job env job).writes) = true := by
  rw [h]
  rcases process_job_writes_cases env job with hw | hw | hw | hw | hw | hw <;>
    rw [hw] <;> exact ⟨by decide, by decide⟩

/-- Witness for C1: the amended state-machine theorem applied to the concrete
remote job `cexJobRemote` in `env_dlfail`. -/
theorem C1_status_machine_forward_witness :
    (∀ s ∈ cexJobRemote.status :: (process_job env_dlfail cexJobRemote).writes,
        s ∈ code_status_values) ∧
    status_chain (cexJobRemote.status :: (process_job env_dlfail cexJobRemote).writes) = true :=
  C1_status_machine_forward env_dlfail cexJobRemote rfl



/-- C2: after any sequence of submit and run_pending operations, a job's
status is "completed" exactly when its transcript is set and its error is
unset, and "failed" exactly when its error is set and its transcript is
unset. -/
theorem C2_completed_failed_iff (env : Env) (ops : List Op) (j : TranscriptionJob)
    (hj : j ∈ runOps env ops) :
    (j.status = "completed" ↔ (j.transcript ≠ none ∧ j.error = none)) ∧
    (j.status = "failed" ↔ (j.error ≠ none ∧ j.transcript = none)) := by
  have hinv : restInv j := by
    have := runOps_restInv env ops [] (by intro a ha; cases ha)
    exact this j hj
  rcases hinv with ⟨hst, hp, hc, hf⟩
  constructor
  · constructor
    · exact hc
    · rintro ⟨ht, he⟩
      rcases hst with h0 | h0 | h0
      · exact absurd (hp h0).1 ht
      · exact h0
      · exact absurd he (hf h0).1
  · constructor
    · exact hf
    · rintro ⟨herr, ht⟩
      rcases hst with h0 | h0 | h0
      · exact absurd (hp h0).2 herr
      · exact absurd (hc h0).2 herr
      · exact h0

/-- Witness for C2: a local file submitted in `env_localgone` and processed;
the resulting job failed with an error and no transcript. -/
theorem C2_completed_failed_iff_witness :
    (wJobLocalDone.status = "completed" ↔
      (wJobLocalDone.transcript ≠ none ∧ wJobLocalDone.error = none)) ∧
    (wJobLocalDone.status = "failed" ↔
      (wJobLocalDone.error ≠ none ∧ wJobLocalDone.transcript = none)) :=
  C2_completed_failed_iff env_localgone
    [Op.submit "f.mp3" none none 7, Op.runPending] wJobLocalDone (by decide)



/-- C3: a source that is neither an existing local file nor a URL with an
http(s) scheme makes add_job raise ValueError: no job id is returned and the
registry is left unchanged. -/
theorem C3_invalid_source_rejected (env : Env) (now_ms : Nat)
    (jobs : List TranscriptionJob) (source : String) (fmt lang : Option String)
    (h1 : env.isfile source = false) (h2 : is_url source = false) :
    add_job env now_ms jobs source fmt lang =
      Except.error ("Source must be either a valid URL or existing file: " ++ source) ∧
    applyOp env jobs (Op.submit source fmt lang now_ms) = jobs := by
  have ha : add_job env now_ms jobs source fmt lang =
      Except.error ("Source must be either a valid URL or existing file: " ++ source) := by
    simp [add_job, h1, h2]
  exact ⟨ha, by simp [applyOp, ha]⟩

/-- Witness for C3: the source "not-a-url" in `env_dlfail` (no file exists,
no scheme) is rejected and the empty registry stays empty. -/
theorem C3_invalid_source_rejected_witness :
    add_job env_dlfail 3 [] "not-a-url" none none =
      Except.error ("Source must be either a valid URL or existing file: " ++ "not-a-url") ∧
    applyOp env_dlfail [] (Op.submit "not-a-url" none none 3) = [] :=
  C3_invalid_source_rejected env_dlfail 3 [] "not-a-url" none none rfl (by decide)

/-- C4: every job that is pending when process_jobs is called is in a
terminal state (completed or failed) when it returns. -/
theorem C4_pending_jobs_reach_terminal (env : Env) (jobs : List TranscriptionJob)
    (i : Nat) (h : i < jobs.length) (hp : (jobs.getD i dJob).status = "pending") :
    ((process_jobs env jobs).getD i dJob).status = "completed" ∨
    ((process_jobs env jobs).getD i dJob).status = "failed" := by
  rw [process_jobs, process_jobs_exc_getD env _ jobs i h]
  rw [show ((jobs.getD i dJob).status == "pending") = true by rw [beq_iff_eq]; exact hp]
  simp only [if_true]
  rw [dispatch_noFault]
  exact process_job_status_terminal env (jobs.getD i dJob)

/-- Witness for C4: the pending remote job `cexJobRemote` is terminal after
a processing round in `env_dlfail`. -/
theorem C4_pending_jobs_reach_terminal_witness :
    ((process_jobs env_dlfail [cexJobRemote]).getD 0 dJob).status = "completed" ∨
    ((process_jobs env_dlfail [cexJobRemote]).getD 0 dJob).status = "failed" :=
  C4_pending_jobs_reach_terminal env_dlfail [cexJobRemote] 0 (by decide) rfl

/-- C5: when the acquisition stage (local preparation or download) fails,
the transcribe stage is never invoked, the job fails, and its error message
is non-empty. -/
theorem C5_acquisition_failure_skips_transcribe (env : Env) (job : TranscriptionJob)
    (h : (if job.is_local_file then prepare_local_file env job
          else download_audio env job).ok = false) :
    (process_job env job).transcribe_invoked = false ∧
    (process_job env job).job.status = "failed" ∧
    (process_job env job).job.error ≠ none ∧
    (∀ m, (process_job env job).job.error = some m → m ≠ "") := by
  simp only [process_job]
  cases hl : job.is_local_file with
  | true =>
    rw [hl] at h
    simp only [if_true] at h ⊢
    rcases prepare_local_file_fields env job with ⟨hok, hst, ⟨m, hm, hne⟩, _, _⟩ | ⟨hok, _⟩
    · simp only [hok, Bool.false_eq_true, if_false]
      refine ⟨by trivial, hst, by rw [hm]; simp, ?_⟩
      intro m2 hm2
      rw [hm] at hm2
      injection hm2 with hh
      rw [← hh]
      exact hne
    · rw [hok] at h
      exact absurd h (by decide)
  | false =>
    rw [hl] at h
    simp only [Bool.false_eq_true, if_false] at h ⊢
    rcases download_audio_fields env job with ⟨hok, hst, ⟨m, hm, hne⟩, _, _⟩ | ⟨hok, _⟩
    · simp only [hok, Bool.false_eq_true, if_false]
      refine ⟨by trivial, hst, by rw [hm]; simp, ?_⟩
      intro m2 hm2
      rw [hm] at hm2
      injection hm2 with hh
      rw [← hh]
      exact hne
    · rw [hok] at h
      exact absurd h (by decide)

/-- Witness for C5: in `env_localgone` the local job's source path does not
exist, preparation fails, and transcription is never reached. -/
theorem C5_acquisition_failure_skips_transcribe_witness :
    (process_job env_localgone wJobLocal).transcribe_invoked = false ∧
    (process_job env_localgone wJobLocal).job.status = "failed" ∧
    (process_job env_localgone wJobLocal).job.error ≠ none ∧
    (∀ m, (process_job env_localgone wJobLocal).job.error = some m → m ≠ "") :=
  C5_acquisition_failure_skips_transcribe env_localgone wJobLocal (by decide)

/-- C6: a local video job whose extraction collaborator fails is not failed:
preparation succeeds with the raw source file as the audio path, and the job
proceeds into the transcribe stage (status reaches "transcribing"). -/
theorem C6_extraction_failure_falls_back (env : Env) (job : TranscriptionJob)
    (hl : job.is_local_file = true)
    (he : env.path_exists job.source = true)
    (hv : video_extensions.contains (lowerStr (pathSuffix job.source)) = true)
    (hx : env.extract_ok job.source
        (env.temp_dir ++ "/extracted_audio_" ++ safeId job.job_id ++ ".mp3") = false) :
    (prepare_local_file env job).ok = true ∧
    (prepare_local_file env job).job.audio_file = some job.source ∧
    (process_job env job).transcribe_invoked = true ∧
    "transcribing" ∈ (process_job env job).writes := by
  have hna : audio_extensions.contains (lowerStr (pathSuffix job.source)) = false := by
    have hmem : lowerStr (pathSuffix job.source) ∈ video_extensions := by simpa using hv
    have hdisj : ∀ s ∈ video_extensions, audio_extensions.contains s = false := by decide
    exact hdisj _ hmem
  have hprep : prepare_local_file env job =
      { job := { job with audio_file := some job.source }, ok := true, writes := [] } := by
    simp [prepare_local_file, he, hna, hv, hx]
  have hpj : process_job env job =
      { job := (transcribe_audio env { job with audio_file := some job.source }).job,
        transcribe_invoked := true,
        writes := [] ++ (transcribe_audio env { job with audio_file := some job.source }).writes,
        deleted := cleanup_audio_file env
          (transcribe_audio env { job with audio_file := some job.source }).job } := by
    simp [process_job, hl, hprep]
  refine ⟨by rw [hprep], by rw [hprep], by rw [hpj], ?_⟩
  rw [hpj]
  rcases transcribe_audio_fields env { job with audio_file := some job.source } with
    ⟨_, _, _, _, hw2, _⟩ | ⟨_, _, _, _, hw2, _⟩ <;> rw [hw2] <;> simp

/-- Witness for C6: the local video `wJobVideo` in `env_video`, where
extraction fails but the pipeline proceeds with the raw file. -/
theorem C6_extraction_failure_falls_back_witness :
    (prepare_local_file env_video wJobVideo).ok = true ∧
    (prepare_local_file env_video wJobVideo).job.audio_file = some wJobVideo.source ∧
    (process_job env_video wJobVideo).transcribe_invoked = true ∧
    "transcribing" ∈ (process_job env_video wJobVideo).writes :=
  C6_extraction_failure_falls_back env_video wJobVideo rfl rfl (by decide) rfl



/-- C7: cleanup never touches the caller's own local source file: for a job
with is_local_file true whose audio path equals its source, nothing is
deleted (for any cleanup setting and any outcome, and trivially on every
repetition, since cleanup is a function of the job); and whenever cleanup
does delete a path, that path is the job's audio file and is never a local
job's original source. -/
theorem C7_cleanup_preserves_local_source (env : Env) (job : TranscriptionJob) :
    (job.is_local_file = true → job.audio_file = some job.source →
      cleanup_audio_file env job = none) ∧
    (∀ p, cleanup_audio_file env job = some p →
      job.audio_file = some p ∧ ¬(job.is_local_file = true ∧ p = job.source)) := by
  constructor
  · intro hl ha
    simp [cleanup_audio_file, ha, hl]
  · intro p hp
    rcases haf : job.audio_file with _ | af
    · simp only [cleanup_audio_file, haf] at hp
      cases hp
    · simp only [cleanup_audio_file, haf] at hp
      split at hp
      · split at hp
        · cases hp
        · split at hp
          · rename_i hcond hex
            injection hp with hp2
            constructor
            · rw [hp2]
            · rintro ⟨hl, hps⟩
              rw [Bool.not_eq_true] at hcond
              rw [hl] at hcond
              simp only [Bool.true_and] at hcond
              rw [hp2, hps] at hcond
              simp at hcond
          · cases hp
      · cases hp

/-- Witness for C7: the local audio job `wJobLocalAudio`, whose audio path is
its own source, is never cleaned up in `env_video` (cleanup enabled). -/
theorem C7_cleanup_preserves_local_source_witness :
    cleanup_audio_file env_video wJobLocalAudio = none :=
  (C7_cleanup_preserves_local_source env_video wJobLocalAudio).1 rfl rfl

/-- C8: an unexpected fault in one job's pipeline execution is caught at the
dispatch boundary: the whole registry is still processed (same length), any
job whose dispatch does not fault gets exactly its no-fault result (so a
sibling's fault never changes it), and a faulted pending job ends failed
with the fault recorded as "Processing error: ..." in its error field. -/
theorem C8_fault_isolation (env : Env) (fault : String → Option String)
    (jobs : List TranscriptionJob) :
    (process_jobs_exc env fault jobs).length = jobs.length ∧
    (∀ i, i < jobs.length →
      (fault (jobs.getD i dJob).job_id = none →
        (process_jobs_exc env fault jobs).getD i dJob = (process_jobs env jobs).getD i dJob) ∧
      (∀ e, fault (jobs.getD i dJob).job_id = some e →
        (jobs.getD i dJob).status = "pending" →
          ((process_jobs_exc env fault jobs).getD i dJob).error =
            some ("Processing error: " ++ e) ∧
          ((process_jobs_exc env fault jobs).getD i dJob).status = "failed")) := by
  refine ⟨process_jobs_exc_length env fault jobs, ?_⟩
  intro i h
  rw [process_jobs, process_jobs_exc_getD env fault jobs i h,
    process_jobs_exc_getD env (fun _ => none) jobs i h]
  constructor
  · intro hf
    by_cases hc : ((jobs.getD i dJob).status == "pending") = true
    · rw [hc]
      simp only [if_true, dispatch, hf]
    · rw [Bool.not_eq_true] at hc
      rw [hc]
      simp
  · intro e hfe hp
    rw [show ((jobs.getD i dJob).status == "pending") = true by rw [beq_iff_eq]; exact hp]
    simp only [if_true, dispatch, hfe]
    constructor <;> trivial

/-- Witness for C8: the fault oracle `wFault` hits the single pending job
"job_1_0"; its error records the fault and it is failed. -/
theorem C8_fault_isolation_witness :
    ((process_jobs_exc env_dlfail wFault [cexJobRemote]).getD 0 dJob).error =
      some ("Processing error: " ++ "boom") ∧
    ((process_jobs_exc env_dlfail wFault [cexJobRemote]).getD 0 dJob).status = "failed" :=
  ((C8_fault_isolation env_dlfail wFault [cexJobRemote]).2 0 (by decide)).2
    "boom" (by decide) rfl

/-- C9: when no job in the registry is pending, a process_jobs round is a
no-op: the registry is returned unchanged. -/
theorem C9_no_pending_noop (env : Env) (jobs : List TranscriptionJob)
    (h : ∀ j ∈ jobs, j.status ≠ "pending") : process_jobs env jobs = jobs := by
  rw [process_jobs]
  simp only [process_jobs_exc]
  have hemp : (jobs.filter (fun j => j.status == "pending")).isEmpty = true := by
    rw [List.isEmpty_iff, List.filter_eq_nil_iff]
    intro a ha
    simpa using h a ha
  simp [hemp]

/-- Witness for C9: a registry holding one failed job is unchanged by a
further processing round. -/
theorem C9_no_pending_noop_witness :
    process_jobs env_dlfail [wJobFailed] = [wJobFailed] :=
  C9_no_pending_noop env_dlfail [wJobFailed] (by decide)

/-- C10: for a job id not in the registry, and for a registered job with no
transcript, save_transcript and copy_transcript_to_clipboard return false
with no attempted file write and no clipboard change. -/
theorem C10_export_guards (env : Env) (jobs : List TranscriptionJob)
    (job_id filename : String) :
    (jobs.find? (fun j => j.job_id == job_id) = none →
      save_transcript env jobs job_id filename = (false, none) ∧
      copy_transcript_to_clipboard env jobs job_id = (false, none)) ∧
    (∀ job, jobs.find? (fun j => j.job_id == job_id) = some job → job.transcript = none →
      save_transcript env jobs job_id filename = (false, none) ∧
      copy_transcript_to_clipboard env jobs job_id = (false, none)) := by
  constructor
  · intro h
    constructor
    · simp [save_transcript, h]
    · simp [copy_transcript_to_clipboard, h]
  · intro job h ht
    constructor
    · simp [save_transcript, h, transcript_truthy, ht]
    · simp [copy_transcript_to_clipboard, h, transcript_truthy, ht]

/-- Witness for C10: the failed job `wJobFailed` (no transcript) and a
missing id both yield false with no effect. -/
theorem C10_export_guards_witness :
    save_transcript env_dlfail [wJobFailed] "job_4_0" "out.txt" = (false, none) ∧
    copy_transcript_to_clipboard env_dlfail [wJobFailed] "job_4_0" = (false, none) :=
  (C10_export_guards env_dlfail [wJobFailed] "job_4_0" "out.txt").2 wJobFailed
    (by decide) rfl


end Transcribe
